import Mathlib

/-!
# Verification of the mnee-connect core (session keys, escrow, unit conversion)

Shallow embedding of the invariant-carrying core of the mnee-connect
repository:

* the session-key client (MneeClient in the SDK: authorizeAgent,
  _sendPaymentWithSessionKey, revokeSessionKey, together with the utils
  isExpired / getExpirationTimestamp),
* the on-chain escrow state machine (contracts/MneeEscrow.sol: lockFunds,
  releaseWithProof, refund, dispute, resolveDispute, _verifyAttestation),
* the minor-unit conversion helpers (utils toWei / fromWei).

Amounts handled by the TypeScript client are JavaScript bigint values and are
modelled as Int; Solidity uint256 amounts and timestamps are modelled as Nat
(the contract performs no arithmetic on them that could overflow).
-/

namespace Mnee

/-! ## Session keys (SDK client, src/unnamed/part_003 and part_002) -/

/-- MNEE_TOKEN_CONFIG.decimals: USDC-style 6 decimal places. -/
def decimals : Nat := 6

/-- SessionKey record of the SDK (constants.ts).  The interface holds
privateKey, address, spendLimit, remainingLimit, expiresAt, createdAt; the
private key plays no role in the accounting and the address is kept as a Nat.
Note the interface has no isActive / revoked field. -/
structure SessionKey where
  address : Nat
  spendLimit : Int
  remainingLimit : Int
  expiresAt : Nat
  createdAt : Nat
  deriving DecidableEq, Repr

/-- PaymentStatus enum of the SDK. -/
inductive PaymentStatus where
  | pending
  | confirmed
  | failed
  deriving DecidableEq, Repr

/-- Errors thrown by the SDK payment / session paths (each constructor is one
thrown Error message). -/
inductive ClientError where
  /-- "Session key has expired" -/
  | sessionExpired
  /-- "Amount exceeds session key limit. Remaining: ... MNEE" (carries the
  remaining limit rendered in the message) -/
  | limitExceeded (remaining : Int)
  /-- "Main account not initialized" / "Account not initialized" -/
  | accountMissing
  /-- "Session key not found" (revokeSessionKey on an unknown id) -/
  | sessionKeyNotFound
  deriving DecidableEq, Repr

/-- utils.isExpired: `Math.floor(Date.now() / 1000) >= expiresAt`. -/
def isExpired (now expiresAt : Nat) : Bool :=
  expiresAt ≤ now

/-- utils.getExpirationTimestamp: current unix time plus the duration. -/
def getExpirationTimestamp (now durationInSeconds : Nat) : Nat :=
  now + durationInSeconds

/-- MneeClient.authorizeAgent: generates an ephemeral key, converts the spend
limit to wei, and stores a SessionKey with remainingLimit initialized to the
full spend limit and expiresAt = now + duration.  The wei-converted spend
limit and the fresh session address are taken as parameters here. -/
def authorizeAgent (sessionAddress : Nat) (spendLimitWei : Int)
    (now duration : Nat) : SessionKey :=
  { address := sessionAddress
    spendLimit := spendLimitWei
    remainingLimit := spendLimitWei
    expiresAt := getExpirationTimestamp now duration
    createdAt := now }

/-- MneeClient._sendPaymentWithSessionKey: validates expiry, then the spend
limit, then the presence of the main account; submits transferFrom, then
unconditionally decrements remainingLimit, then awaits the receipt whose
on-chain success flag (txOk) determines the returned PaymentStatus.  The
decrement is applied whether the receipt later reports success or failure. -/
def sendPaymentWithSessionKey (hasAccount : Bool) (now : Nat) (amount : Int)
    (txOk : Bool) (k : SessionKey) :
    Except ClientError (SessionKey × PaymentStatus) :=
  if isExpired now k.expiresAt then
    .error .sessionExpired
  else if k.remainingLimit < amount then
    .error (.limitExceeded k.remainingLimit)
  else if ¬ hasAccount then
    .error .accountMissing
  else
    .ok ({ k with remainingLimit := k.remainingLimit - amount },
      if txOk then .confirmed else .failed)

/-- One session-key payment request: the unix time at which it is made, the
principal amount in wei, and whether the underlying transferFrom transaction
succeeds on-chain. -/
structure PayReq where
  now : Nat
  amount : Int
  txOk : Bool
  deriving DecidableEq, Repr

/-- Run a sequence of session-key payments through one key, sequentially,
recording each request with its outcome. -/
def runPayments (hasAccount : Bool) (k : SessionKey) :
    List PayReq → SessionKey × List (PayReq × Except ClientError PaymentStatus)
  | [] => (k, [])
  | r :: rs =>
    match sendPaymentWithSessionKey hasAccount r.now r.amount r.txOk k with
    | .error e =>
      ((runPayments hasAccount k rs).1,
        (r, .error e) :: (runPayments hasAccount k rs).2)
    | .ok (k1, st) =>
      ((runPayments hasAccount k1 rs).1,
        (r, .ok st) :: (runPayments hasAccount k1 rs).2)

/-- Sum of the principal amounts of the requests whose debit went through
(the call returned without throwing). -/
def sumDebited (res : List (PayReq × Except ClientError PaymentStatus)) : Int :=
  res.foldl (fun acc p => if p.2.isOk then acc + p.1.amount else acc) 0

/-! ## Escrow state machine (contracts/MneeEscrow.sol)

Every entry point of the contract touches exactly one slot of the
`tasks` mapping (the slot addressed by the taskId argument, or by the
freshly computed id for lockFunds), so the contract's behaviour on a fixed
taskId is faithfully captured by the evolution of that single slot.  A
non-existent task is the Solidity zero struct and existence is tested by
`task.agent != address(0)`, exactly as the contract does.  A failed
`require` reverts the whole call: state unchanged, no transfer. -/

/-- TaskStatus enum of MneeEscrow.sol. -/
inductive TaskStatus where
  | active
  | completed
  | refunded
  | disputed
  deriving DecidableEq, Repr

/-- EscrowTask struct of MneeEscrow.sol (the embedded copy of taskId and the
description string carry no logic; the description enters only through its
length, kept as descLen in lockFunds). -/
structure EscrowTask where
  agent : Nat
  serviceProvider : Nat
  amount : Nat
  deadline : Nat
  status : TaskStatus
  autoRefund : Bool
  deriving DecidableEq, Repr

/-- The Solidity zero struct: the value of an untouched mapping slot. -/
def emptyTask : EscrowTask :=
  { agent := 0, serviceProvider := 0, amount := 0, deadline := 0
    status := .active, autoRefund := false }

/-- One outgoing token transfer performed by the escrow contract
(mneeToken.transfer(recipient, amount)). -/
structure Transfer where
  recipient : Nat
  amount : Nat
  deriving DecidableEq, Repr

/-- Revert reasons of the escrow entry points (one constructor per require
message on the paths modelled). -/
inductive EscrowError where
  /-- "Invalid provider address" -/
  | invalidProvider
  /-- "Amount must be greater than 0" -/
  | zeroAmount
  /-- "Deadline must be in future" -/
  | deadlineNotFuture
  /-- "Description required" -/
  | descriptionRequired
  /-- "Task already exists" -/
  | taskExists
  /-- "Task does not exist" -/
  | taskNotFound
  /-- "Task not active" -/
  | taskNotActive
  /-- "Task deadline passed" -/
  | deadlinePassed
  /-- "Invalid attestation" -/
  | invalidAttestation
  /-- "Not authorized or auto-refund disabled" -/
  | notAuthorized
  /-- "Deadline not passed" -/
  | deadlineNotPassed
  /-- "Not authorized" (dispute) -/
  | notParty
  /-- "Task not disputed" -/
  | taskNotDisputed
  /-- onlyOwner modifier rejection -/
  | notOwner
  deriving DecidableEq, Repr

/-- The attestation argument of releaseWithProof: the bytes32 attestationUID
(0 = empty), whether a signature was supplied (signature.length > 0), and the
signer address that ecrecover yields for that signature over the message hash
(ecrecover itself is kept abstract; its output is this field). -/
structure Attestation where
  uid : Nat
  sigPresent : Bool
  recoveredSigner : Nat
  deriving DecidableEq, Repr

/-- MneeEscrow._verifyAttestation: with a signature present, the recovered
signer must equal the configured attestationProvider; with no signature, the
fallback accepts any non-zero attestationUID. -/
def verifyAttestation (attestationProvider : Nat) (a : Attestation) : Bool :=
  if a.sigPresent then
    a.recoveredSigner == attestationProvider
  else
    a.uid != 0

/-- MneeEscrow.lockFunds restricted to the slot of the computed taskId:
validates provider, amount, deadline and description, requires the slot to be
unused, pulls the funds from the caller (the funding transferFrom; not an
outgoing payout, hence not recorded in the payout list) and writes the Active
task. -/
def lockFunds (now caller provider amount deadline descLen : Nat)
    (autoRefund : Bool) (slot : EscrowTask) :
    Except EscrowError (EscrowTask × List Transfer) :=
  if provider = 0 then .error .invalidProvider
  else if amount = 0 then .error .zeroAmount
  else if ¬ now < deadline then .error .deadlineNotFuture
  else if descLen = 0 then .error .descriptionRequired
  else if slot.agent ≠ 0 then .error .taskExists
  else
    .ok ({ agent := caller, serviceProvider := provider, amount := amount
           deadline := deadline, status := .active, autoRefund := autoRefund },
      [])

/-- MneeEscrow.releaseWithProof: requires an existing Active task whose
deadline has not passed (inclusive: now ≤ deadline) and a verifying
attestation; then marks Completed and transfers the amount to the provider. -/
def releaseWithProof (attestationProvider : Nat) (now : Nat) (a : Attestation)
    (slot : EscrowTask) : Except EscrowError (EscrowTask × List Transfer) :=
  if slot.agent = 0 then .error .taskNotFound
  else if slot.status ≠ .active then .error .taskNotActive
  else if ¬ now ≤ slot.deadline then .error .deadlinePassed
  else if ¬ verifyAttestation attestationProvider a then .error .invalidAttestation
  else
    .ok ({ slot with status := .completed },
      [{ recipient := slot.serviceProvider, amount := slot.amount }])

/-- MneeEscrow.refund: requires an existing Active task, a caller who is the
funding agent or autoRefund enabled, and now strictly past the deadline; then
marks Refunded and transfers the amount back to the agent. -/
def refund (now caller : Nat) (slot : EscrowTask) :
    Except EscrowError (EscrowTask × List Transfer) :=
  if slot.agent = 0 then .error .taskNotFound
  else if slot.status ≠ .active then .error .taskNotActive
  else if ¬ (caller = slot.agent ∨ slot.autoRefund) then .error .notAuthorized
  else if ¬ slot.deadline < now then .error .deadlineNotPassed
  else
    .ok ({ slot with status := .refunded },
      [{ recipient := slot.agent, amount := slot.amount }])

/-- MneeEscrow.dispute: either party of an existing Active task moves it to
Disputed; no funds move. -/
def dispute (caller : Nat) (slot : EscrowTask) :
    Except EscrowError (EscrowTask × List Transfer) :=
  if slot.agent = 0 then .error .taskNotFound
  else if slot.status ≠ .active then .error .taskNotActive
  else if ¬ (caller = slot.agent ∨ caller = slot.serviceProvider) then
    .error .notParty
  else
    .ok ({ slot with status := .disputed }, [])

/-- MneeEscrow.resolveDispute: owner-only; requires Disputed; pays the
provider or refunds the agent according to the flag and marks the matching
terminal status. -/
def resolveDispute (callerIsOwner releaseToProvider : Bool)
    (slot : EscrowTask) : Except EscrowError (EscrowTask × List Transfer) :=
  if ¬ callerIsOwner then .error .notOwner
  else if slot.status ≠ .disputed then .error .taskNotDisputed
  else
    .ok ({ slot with
            status := if releaseToProvider then .completed else .refunded },
      [{ recipient := if releaseToProvider then slot.serviceProvider else slot.agent
         amount := slot.amount }])

/-- One call into the escrow contract addressed at the fixed taskId under
consideration. -/
inductive EscrowEvent where
  | lock (now caller provider amount deadline descLen : Nat) (autoRefund : Bool)
  | release (now : Nat) (a : Attestation)
  | refundCall (now caller : Nat)
  | disputeCall (caller : Nat)
  | resolve (callerIsOwner releaseToProvider : Bool)
  deriving DecidableEq, Repr

/-- Dispatch one call; a revert (require failure) leaves the slot unchanged
and performs no transfer, mirroring EVM transaction semantics (in particular
a status write and its fund transfer commit atomically or not at all). -/
def escrowStep (attestationProvider : Nat) (slot : EscrowTask)
    (e : EscrowEvent) : EscrowTask × List Transfer :=
  let r : Except EscrowError (EscrowTask × List Transfer) :=
    match e with
    | .lock now caller provider amount deadline descLen autoRefund =>
      lockFunds now caller provider amount deadline descLen autoRefund slot
    | .release now a => releaseWithProof attestationProvider now a slot
    | .refundCall now caller => refund now caller slot
    | .disputeCall caller => dispute caller slot
    | .resolve o p => resolveDispute o p slot
  match r with
  | .ok (slot', ts) => (slot', ts)
  | .error _ => (slot, [])

/-- Run a sequence of calls against the slot, accumulating every outgoing
payout the contract makes from this task's locked funds. -/
def escrowRun (attestationProvider : Nat) (slot : EscrowTask) :
    List EscrowEvent → EscrowTask × List Transfer
  | [] => (slot, [])
  | e :: es =>
    ((escrowRun attestationProvider (escrowStep attestationProvider slot e).1 es).1,
      (escrowStep attestationProvider slot e).2 ++
        (escrowRun attestationProvider (escrowStep attestationProvider slot e).1 es).2)

/-- The terminal statuses of the escrow state machine. -/
def TaskStatus.isTerminal : TaskStatus → Bool
  | .completed => true
  | .refunded => true
  | _ => false

/-! ## Session-key revocation (MneeClient.revokeSessionKey) -/

/-- One on-chain approve(spender, amount) transaction issued by the client. -/
structure ApproveTx where
  spender : Nat
  amountWei : Int
  deriving DecidableEq, Repr

/-- The client's in-memory session-key store (the Map sessionKeys keyed by
label or address; a Map's keys are distinct). -/
abbrev KeyStore := List (String × SessionKey)

/-- MneeClient.revokeSessionKey: looks the key up in the store, throws
"Session key not found" if absent; otherwise issues one approve(address, 0)
transaction zeroing the on-chain allowance and deletes the entry from the
store. -/
def revokeSessionKey (st : KeyStore) (keyId : String) :
    Except ClientError (KeyStore × ApproveTx) :=
  match st.lookup keyId with
  | none => .error .sessionKeyNotFound
  | some k =>
    .ok (st.eraseP (fun p => p.1 == keyId),
      { spender := k.address, amountWei := 0 })

/-! ## Interleaving of two concurrent session-key payments

_sendPaymentWithSessionKey runs its expiry / limit / account checks
synchronously, then suspends at the awaited writeContract call, and only
after that resumes to decrement the shared SessionKey record's
remainingLimit.  Under the JavaScript event loop another call on the same key
may run between a call's checks and its decrement; this machine makes that
suspension point explicit. -/

/-- Where one in-flight _sendPaymentWithSessionKey call stands. -/
inductive ThreadPhase where
  /-- entered, validation not yet run -/
  | ready
  /-- checks passed; suspended at the awaited writeContract submission,
  decrement not yet applied -/
  | validated
  /-- returned a receipt -/
  | done (st : PaymentStatus)
  /-- threw during validation -/
  | threw (e : ClientError)
  deriving DecidableEq, Repr

/-- One in-flight session-key payment call. -/
structure RaceThread where
  amount : Int
  txOk : Bool
  phase : ThreadPhase
  deriving DecidableEq, Repr

/-- Advance one call by one scheduler slice against the shared SessionKey
record: from ready it runs the three checks against the current shared
remainingLimit (no write) and suspends; from validated it applies the
decrement and completes with the receipt status. -/
def threadStep (hasAccount : Bool) (now : Nat) (k : SessionKey)
    (t : RaceThread) : SessionKey × RaceThread :=
  match t.phase with
  | .ready =>
    if isExpired now k.expiresAt then
      (k, { t with phase := .threw .sessionExpired })
    else if k.remainingLimit < t.amount then
      (k, { t with phase := .threw (.limitExceeded k.remainingLimit) })
    else if ¬ hasAccount then
      (k, { t with phase := .threw .accountMissing })
    else
      (k, { t with phase := .validated })
  | .validated =>
    ({ k with remainingLimit := k.remainingLimit - t.amount },
      { t with phase := .done (if t.txOk then .confirmed else .failed) })
  | _ => (k, t)

/-- Run two concurrent calls under an explicit schedule (true = give the next
slice to the first call, false = to the second). -/
def raceRun (hasAccount : Bool) (now : Nat) :
    SessionKey × RaceThread × RaceThread → List Bool →
    SessionKey × RaceThread × RaceThread
  | s, [] => s
  | (k, t1, t2), c :: cs =>
    if c then
      let (k', t1') := threadStep hasAccount now k t1
      raceRun hasAccount now (k', t1', t2) cs
    else
      let (k', t2') := threadStep hasAccount now k t2
      raceRun hasAccount now (k', t1, t2') cs

/-! ## Minor-unit conversion (utils toWei / fromWei)

Decimal strings are modelled as lists of decimal digits; a human-readable
amount string "whole.frac" is the pair of its whole-part digits and
fractional-part digits (an empty fractional part means the string carries no
decimal point, which is exactly when fromWei omits it and what toWei's
split-with-default produces). -/

/-- Digits of n in base 10, most significant first: n.toString(). -/
def natToDigits (n : Nat) : List Nat :=
  if n = 0 then [0] else (Nat.digits 10 n).reverse

/-- BigInt parse of a digit string, most significant first. -/
def digitsToNat (ds : List Nat) : Nat :=
  ds.foldl (fun a d => a * 10 + d) 0

/-- String.padStart(len, '0'). -/
def padStartZeros (len : Nat) (ds : List Nat) : List Nat :=
  List.replicate (len - ds.length) 0 ++ ds

/-- String.padEnd(len, '0'). -/
def padEndZeros (len : Nat) (ds : List Nat) : List Nat :=
  ds ++ List.replicate (len - ds.length) 0

/-- replace(/0+$/, ''): strip trailing zeros. -/
def dropTrailingZeros (ds : List Nat) : List Nat :=
  (ds.reverse.dropWhile (fun d => d == 0)).reverse

/-- A human-readable decimal amount string: whole digits and fractional
digits (frac = [] when the string has no decimal point). -/
structure DecStr where
  whole : List Nat
  frac : List Nat
  deriving DecidableEq, Repr

/-- utils.fromWei: left-pad the decimal rendering of wei to decimals+1
digits, split it decimals digits from the right into whole and fractional
parts (falling back to "0" for an empty whole part), and strip the
fractional part's trailing zeros, omitting the decimal point when nothing
remains. -/
def fromWei (wei : Nat) : DecStr :=
  let weiStr := padStartZeros (decimals + 1) (natToDigits wei)
  let decimalPosition := weiStr.length - decimals
  let whole0 := weiStr.take decimalPosition
  let whole := if whole0 = [] then [0] else whole0
  let dec := weiStr.drop decimalPosition
  let trimmedDecimal := dropTrailingZeros dec
  { whole := whole, frac := trimmedDecimal }

/-- utils.toWei: right-pad the fractional digits to decimals digits,
truncate to decimals digits, append to the whole digits and parse the
result as one integer. -/
def toWei (s : DecStr) : Nat :=
  let paddedDecimal := padEndZeros decimals s.frac
  let truncatedDecimal := paddedDecimal.take decimals
  digitsToNat (s.whole ++ truncatedDecimal)

/-! ## Invariant predicates -/

/-- A call carried by a real EVM transaction has a non-zero msg.sender; the
contract's existence test (agent == address(0)) relies on exactly this. -/
def EscrowEvent.callerOk : EscrowEvent → Prop
  | .lock _ caller _ _ _ _ _ => caller ≠ 0
  | _ => True

/-- Relation between a task slot and the outgoing payouts made so far from
its locked funds: an unused slot has paid nothing, a live (Active or
Disputed) task has paid nothing, and a terminal task has paid exactly once,
the full amount, to the provider (Completed) or the funder (Refunded). -/
def payoutInv (slot : EscrowTask) (ps : List Transfer) : Prop :=
  (slot.agent = 0 → slot = emptyTask ∧ ps = []) ∧
  (slot.agent ≠ 0 →
    ((slot.status = .active ∨ slot.status = .disputed) → ps = []) ∧
    (slot.status = .completed →
      ps = [{ recipient := slot.serviceProvider, amount := slot.amount }]) ∧
    (slot.status = .refunded →
      ps = [{ recipient := slot.agent, amount := slot.amount }]))

end Mnee

namespace Mnee

/-! # Theorems

## Session-key payment accounting -/

theorem sumDebited_shift (l : List (PayReq × Except ClientError PaymentStatus))
    (init : Int) :
    l.foldl (fun acc p => if p.2.isOk then acc + p.1.amount else acc) init
      = init + sumDebited l := by
  induction l generalizing init with
  | nil => simp [sumDebited]
  | cons x l ih =>
    have hx : sumDebited (x :: l)
        = l.foldl (fun acc p => if p.2.isOk then acc + p.1.amount else acc)
            (if x.2.isOk then 0 + x.1.amount else 0) := rfl
    simp only [List.foldl]
    rw [ih, hx, ih]
    by_cases h : x.2.isOk <;> simp [h, add_assoc]

theorem sumDebited_cons (x : PayReq × Except ClientError PaymentStatus)
    (l : List (PayReq × Except ClientError PaymentStatus)) :
    sumDebited (x :: l) = (if x.2.isOk then x.1.amount else 0) + sumDebited l := by
  have hx : sumDebited (x :: l)
      = l.foldl (fun acc p => if p.2.isOk then acc + p.1.amount else acc)
          (if x.2.isOk then 0 + x.1.amount else 0) := rfl
  rw [hx, sumDebited_shift]
  by_cases h : x.2.isOk <;> simp [h]


theorem sendPayment_ok_inversion (hA : Bool) (now : Nat) (a : Int) (tx : Bool)
    (k k1 : SessionKey) (st : PaymentStatus)
    (h : sendPaymentWithSessionKey hA now a tx k = .ok (k1, st)) :
    k1 = { k with remainingLimit := k.remainingLimit - a }
    ∧ a ≤ k.remainingLimit ∧ now < k.expiresAt ∧ hA = true
    ∧ st = (if tx then .confirmed else .failed) := by
  by_cases h1 : isExpired now k.expiresAt
  · simp [sendPaymentWithSessionKey, h1] at h
  by_cases h2 : k.remainingLimit < a
  · simp [sendPaymentWithSessionKey, h1, h2] at h
  by_cases h3 : hA = true
  case neg => simp [sendPaymentWithSessionKey, h1, h2, h3] at h
  have hs : sendPaymentWithSessionKey hA now a tx k
      = .ok ({ k with remainingLimit := k.remainingLimit - a },
          if tx then .confirmed else .failed) := by
    simp [sendPaymentWithSessionKey, h1, h2, h3]
  rw [hs] at h
  injection h with h'
  rw [Prod.ext_iff] at h'
  obtain ⟨hk, hst⟩ := h'
  refine ⟨hk.symm, le_of_not_lt h2, ?_, h3, hst.symm⟩
  simp only [isExpired, decide_eq_true_eq, Nat.not_le] at h1
  omega

theorem runPayments_accounting (rs : List PayReq) (k : SessionKey)
    (h0 : 0 ≤ k.remainingLimit) :
    (runPayments true k rs).1.spendLimit = k.spendLimit
    ∧ (runPayments true k rs).1.remainingLimit
        = k.remainingLimit - sumDebited (runPayments true k rs).2
    ∧ 0 ≤ (runPayments true k rs).1.remainingLimit := by
  induction rs generalizing k with
  | nil => simpa [runPayments, sumDebited] using h0
  | cons r rs ih =>
    simp only [runPayments]
    cases h : sendPaymentWithSessionKey true r.now r.amount r.txOk k with
    | error e =>
      obtain ⟨hsp, hrem, hpos⟩ := ih k h0
      have he : ((Except.error e : Except ClientError PaymentStatus)).isOk = false := rfl
      refine ⟨hsp, ?_, hpos⟩
      rw [sumDebited_cons]
      simp only [he, if_false]
      simpa using hrem
    | ok p =>
      obtain ⟨k1, st⟩ := p
      obtain ⟨hk1, hle, -, -, -⟩ :=
        sendPayment_ok_inversion true r.now r.amount r.txOk k k1 st h
      subst hk1
      obtain ⟨hsp, hrem, hpos⟩ :=
        ih { k with remainingLimit := k.remainingLimit - r.amount }
          (by simpa using sub_nonneg.mpr hle)
      have hok : ((Except.ok st : Except ClientError PaymentStatus)).isOk = true := rfl
      refine ⟨hsp, ?_, hpos⟩
      rw [sumDebited_cons, hrem]
      simp only [hok, if_true]
      show k.remainingLimit - r.amount - _ = _
      ring

theorem runPayments_requests (rs : List PayReq) (k : SessionKey) :
    ((runPayments true k rs).2).map Prod.fst = rs := by
  induction rs generalizing k with
  | nil => simp [runPayments]
  | cons r rs ih =>
    simp only [runPayments]
    cases h : sendPaymentWithSessionKey true r.now r.amount r.txOk k with
    | error e => simpa using ih k
    | ok p => simpa using ih p.1

theorem sumDebited_nonneg (l : List (PayReq × Except ClientError PaymentStatus))
    (h : ∀ p ∈ l, 0 ≤ p.1.amount) : 0 ≤ sumDebited l := by
  induction l with
  | nil => simp [sumDebited]
  | cons x l ih =>
    rw [sumDebited_cons]
    have hx := h x (by simp)
    have hl := ih (fun p hp => h p (by simp [hp]))
    by_cases hb : x.2.isOk <;> simp [hb] <;> omega

namespace Claims

/-- C2: for every sequence of session-key payments against one session key
(each moving a nonnegative minor-unit amount), the sum of the amounts of the
successful debits never exceeds the key's spendLimit, remainingLimit always
equals spendLimit minus that sum, and 0 ≤ remainingLimit ≤ spendLimit holds
throughout (the quantification over every request list covers every prefix),
with remainingLimit starting equal to spendLimit at authorization. -/
theorem C2_spend_limit_invariant (addr limit now dur : Nat) (reqs : List PayReq)
    (hnn : ∀ r ∈ reqs, 0 ≤ r.amount) :
    (authorizeAgent addr (limit : Int) now dur).remainingLimit
        = (authorizeAgent addr (limit : Int) now dur).spendLimit
    ∧ sumDebited (runPayments true (authorizeAgent addr (limit : Int) now dur) reqs).2
        ≤ (limit : Int)
    ∧ (runPayments true (authorizeAgent addr (limit : Int) now dur) reqs).1.remainingLimit
        = (limit : Int)
          - sumDebited (runPayments true (authorizeAgent addr (limit : Int) now dur) reqs).2
    ∧ 0 ≤ (runPayments true (authorizeAgent addr (limit : Int) now dur) reqs).1.remainingLimit
    ∧ (runPayments true (authorizeAgent addr (limit : Int) now dur) reqs).1.remainingLimit
        ≤ (runPayments true (authorizeAgent addr (limit : Int) now dur) reqs).1.spendLimit := by
  have h0 : (0 : Int) ≤ (authorizeAgent addr (limit : Int) now dur).remainingLimit := by
    simp [authorizeAgent]
  obtain ⟨hsp, hrem, hpos⟩ :=
    runPayments_accounting reqs (authorizeAgent addr (limit : Int) now dur) h0
  have hal : (authorizeAgent addr (limit : Int) now dur).remainingLimit = (limit : Int) := rfl
  have hsl : (authorizeAgent addr (limit : Int) now dur).spendLimit = (limit : Int) := rfl
  rw [hal] at hrem
  have hsum : 0 ≤ sumDebited
      (runPayments true (authorizeAgent addr (limit : Int) now dur) reqs).2 := by
    refine sumDebited_nonneg _ (fun p hp => hnn p.1 ?_)
    have := runPayments_requests reqs (authorizeAgent addr (limit : Int) now dur)
    rw [← this]
    exact List.mem_map_of_mem Prod.fst hp
  refine ⟨rfl, by omega, hrem, hpos, ?_⟩
  rw [hsp, hsl]
  omega

/-- Witness for C2 at a concrete run: limit 1000, debits 400 then 700 (the
second exceeds the remaining 600 and fails), matching spec Scenario A. -/
theorem C2_spend_limit_invariant_witness :
    (∀ r ∈ [PayReq.mk 10 400 true, PayReq.mk 20 700 true], 0 ≤ r.amount)
    ∧ ((authorizeAgent 5 (1000 : Nat) 0 3600).remainingLimit
        = (authorizeAgent 5 (1000 : Nat) 0 3600).spendLimit
    ∧ sumDebited (runPayments true (authorizeAgent 5 (1000 : Nat) 0 3600)
        [PayReq.mk 10 400 true, PayReq.mk 20 700 true]).2 ≤ ((1000 : Nat) : Int)
    ∧ (runPayments true (authorizeAgent 5 (1000 : Nat) 0 3600)
        [PayReq.mk 10 400 true, PayReq.mk 20 700 true]).1.remainingLimit
        = ((1000 : Nat) : Int) - sumDebited (runPayments true (authorizeAgent 5 (1000 : Nat) 0 3600)
            [PayReq.mk 10 400 true, PayReq.mk 20 700 true]).2
    ∧ 0 ≤ (runPayments true (authorizeAgent 5 (1000 : Nat) 0 3600)
        [PayReq.mk 10 400 true, PayReq.mk 20 700 true]).1.remainingLimit
    ∧ (runPayments true (authorizeAgent 5 (1000 : Nat) 0 3600)
        [PayReq.mk 10 400 true, PayReq.mk 20 700 true]).1.remainingLimit
        ≤ (runPayments true (authorizeAgent 5 (1000 : Nat) 0 3600)
            [PayReq.mk 10 400 true, PayReq.mk 20 700 true]).1.spendLimit) :=
  ⟨by decide, C2_spend_limit_invariant 5 1000 0 3600
    [PayReq.mk 10 400 true, PayReq.mk 20 700 true] (by decide)⟩

end Claims

end Mnee

namespace Mnee

theorem isOk_error (e : ClientError) :
    ((Except.error e : Except ClientError (SessionKey × PaymentStatus))).isOk = false := rfl

theorem isOk_ok (x : SessionKey × PaymentStatus) :
    ((Except.ok x : Except ClientError (SessionKey × PaymentStatus))).isOk = true := rfl

namespace Claims

/-- C3 (amended): a debit through a session key succeeds exactly when
now < expiresAt and amount ≤ remainingLimit — the SDK debit path performs no
revocation check (the SessionKey record has no active flag and no
SessionRevoked error exists); otherwise it fails with SessionExpired or with
LimitExceeded carrying the actual remaining amount; a debit of exactly
remainingLimit succeeds and one of remainingLimit + 1 minor units fails with
LimitExceeded. -/
theorem C3_debit_guard_amended (k : SessionKey) (now : Nat) (a : Int) (tx : Bool) :
    ((sendPaymentWithSessionKey true now a tx k).isOk = true
      ↔ (now < k.expiresAt ∧ a ≤ k.remainingLimit))
    ∧ (k.expiresAt ≤ now →
        sendPaymentWithSessionKey true now a tx k = .error .sessionExpired)
    ∧ (now < k.expiresAt → k.remainingLimit < a →
        sendPaymentWithSessionKey true now a tx k
          = .error (.limitExceeded k.remainingLimit))
    ∧ (now < k.expiresAt →
        (sendPaymentWithSessionKey true now k.remainingLimit tx k).isOk = true)
    ∧ (now < k.expiresAt →
        sendPaymentWithSessionKey true now (k.remainingLimit + 1) tx k
          = .error (.limitExceeded k.remainingLimit)) := by
  refine ⟨?_, ?_, ?_, ?_, ?_⟩
  · constructor
    · intro hok
      by_cases h1 : k.expiresAt ≤ now
      · simp [sendPaymentWithSessionKey, isExpired, h1, isOk_error] at hok
      by_cases h2 : k.remainingLimit < a
      · simp [sendPaymentWithSessionKey, isExpired, h1, h2, isOk_error] at hok
      exact ⟨by omega, le_of_not_lt h2⟩
    · rintro ⟨hlt, hle⟩
      have hne : ¬ (k.expiresAt ≤ now) := by omega
      have h2 : ¬ (k.remainingLimit < a) := not_lt.mpr hle
      simp [sendPaymentWithSessionKey, isExpired, hne, h2, isOk_ok]
  · intro h
    simp [sendPaymentWithSessionKey, isExpired, h]
  · intro h1 h2
    have hne : ¬ (k.expiresAt ≤ now) := by omega
    simp [sendPaymentWithSessionKey, isExpired, hne, h2]
  · intro h1
    have hne : ¬ (k.expiresAt ≤ now) := by omega
    simp [sendPaymentWithSessionKey, isExpired, hne, isOk_ok]
  · intro h1
    have hne : ¬ (k.expiresAt ≤ now) := by omega
    have hlt : k.remainingLimit < k.remainingLimit + 1 := by omega
    simp [sendPaymentWithSessionKey, isExpired, hne, hlt]

/-- Witness for C3 (amended) at the boundary: with 3600 s of validity left
and remainingLimit 1000, a debit of exactly the remaining 1000 succeeds. -/
theorem C3_debit_guard_amended_witness :
    (sendPaymentWithSessionKey true 10
      (SessionKey.mk 5 1000 1000 3600 0).remainingLimit true
      (SessionKey.mk 5 1000 1000 3600 0)).isOk = true :=
  (C3_debit_guard_amended (SessionKey.mk 5 1000 1000 3600 0) 10 1000 true).2.2.2.1
    (by decide)

/-- C3 counterexample: after a session key is revoked (its store entry
deleted and its allowance zeroed by the first revocation), a debit through
the very same key object still succeeds in the SDK — it does not fail with a
SessionRevoked error, refuting the claimed success condition. -/
theorem C3_revoked_key_debit_counterexample :
    revokeSessionKey [("agent", SessionKey.mk 5 1000 1000 3600 0)] "agent"
      = .ok ([], { spender := 5, amountWei := 0 })
    ∧ sendPaymentWithSessionKey true 10 5 true (SessionKey.mk 5 1000 1000 3600 0)
      = .ok (SessionKey.mk 5 1000 995 3600 0, .confirmed) := by
  constructor
  · rfl
  · rfl

/-- C4 (amended): whenever a session-key payment passes validation and is
submitted, remainingLimit is debited by the principal amount no matter how
the payment ends: the returned status is Confirmed exactly when the on-chain
transaction succeeds and Failed exactly when it fails, and the debit is
identical in both cases (a Failed outcome does not restore remainingLimit). -/
theorem C4_debit_not_restored_amended (k : SessionKey) (now : Nat) (a : Int)
    (tx : Bool) (k1 : SessionKey) (st : PaymentStatus)
    (h : sendPaymentWithSessionKey true now a tx k = .ok (k1, st)) :
    k1.remainingLimit = k.remainingLimit - a
    ∧ (st = .confirmed ↔ tx = true)
    ∧ (st = .failed ↔ tx = false) := by
  obtain ⟨hk1, -, -, -, hst⟩ := sendPayment_ok_inversion true now a tx k k1 st h
  subst hk1
  subst hst
  cases tx <;> simp

/-- Witness for C4 (amended) on a payment whose transaction fails: the
returned key has been debited 40 and the status is Failed. -/
theorem C4_debit_not_restored_amended_witness :
    (SessionKey.mk 5 100 60 3600 0).remainingLimit
        = (SessionKey.mk 5 100 100 3600 0).remainingLimit - 40
    ∧ (PaymentStatus.failed = .confirmed ↔ false = true)
    ∧ (PaymentStatus.failed = .failed ↔ false = false) :=
  C4_debit_not_restored_amended (SessionKey.mk 5 100 100 3600 0) 10 40 false
    (SessionKey.mk 5 100 60 3600 0) .failed (by rfl)

/-- C4 counterexample: a session-key payment whose underlying transaction
fails returns status Failed yet leaves remainingLimit debited (100 → 60),
refuting the claim that a Failed outcome restores remainingLimit. -/
theorem C4_failed_payment_still_debits_counterexample :
    sendPaymentWithSessionKey true 10 40 false (SessionKey.mk 5 100 100 3600 0)
      = .ok (SessionKey.mk 5 100 60 3600 0, .failed)
    ∧ (SessionKey.mk 5 100 60 3600 0).remainingLimit
        ≠ (SessionKey.mk 5 100 100 3600 0).remainingLimit := by
  exact ⟨rfl, by decide⟩

/-- C9: two concurrent debits of 80 against a key with remainingLimit 100,
interleaved check, check, decrement, decrement (the JavaScript event loop
may suspend each call at its awaited writeContract between the limit check
and the decrement), BOTH succeed and drive remainingLimit to −60 — the code
does not linearize debits per key.  Sequentially the same two debits give
exactly one success and one LimitExceeded(20), which is what the claim
demands of the concurrent run. -/
theorem C9_concurrent_debits_both_succeed :
    raceRun true 10
      (SessionKey.mk 5 100 100 3600 0,
        RaceThread.mk 80 true .ready, RaceThread.mk 80 true .ready)
      [true, false, true, false]
    = (SessionKey.mk 5 100 (-60) 3600 0,
        RaceThread.mk 80 true (.done .confirmed),
        RaceThread.mk 80 true (.done .confirmed))
    ∧ (runPayments true (SessionKey.mk 5 100 100 3600 0)
        [PayReq.mk 10 80 true, PayReq.mk 10 80 true]).2.map Prod.snd
      = [.ok .confirmed, .error (.limitExceeded 20)] := by
  exact ⟨rfl, rfl⟩

end Claims

end Mnee

namespace Mnee

/-! ## Escrow state machine lemmas -/

theorem lockFunds_ok_inversion (now caller provider amount deadline descLen : Nat)
    (ar : Bool) (s s' : EscrowTask) (ts : List Transfer)
    (h : lockFunds now caller provider amount deadline descLen ar s = .ok (s', ts)) :
    s.agent = 0 ∧ ts = []
    ∧ s' = { agent := caller, serviceProvider := provider, amount := amount,
             deadline := deadline, status := .active, autoRefund := ar } := by
  unfold lockFunds at h
  split_ifs at h with h1 h2 h3 h4 h5
  simp only [Except.ok.injEq, Prod.mk.injEq] at h
  exact ⟨by omega, h.2.symm, h.1.symm⟩

theorem releaseWithProof_ok_inversion (p now : Nat) (a : Attestation)
    (s s' : EscrowTask) (ts : List Transfer)
    (h : releaseWithProof p now a s = .ok (s', ts)) :
    s.agent ≠ 0 ∧ s.status = .active ∧ now ≤ s.deadline
    ∧ verifyAttestation p a = true
    ∧ s' = { s with status := .completed }
    ∧ ts = [{ recipient := s.serviceProvider, amount := s.amount }] := by
  unfold releaseWithProof at h
  split_ifs at h with h1 h2 h3 h4
  simp only [Except.ok.injEq, Prod.mk.injEq] at h
  exact ⟨h1, not_not.mp h2, h3, h4, h.1.symm, h.2.symm⟩

theorem refund_ok_inversion (now caller : Nat) (s s' : EscrowTask)
    (ts : List Transfer) (h : refund now caller s = .ok (s', ts)) :
    s.agent ≠ 0 ∧ s.status = .active
    ∧ (caller = s.agent ∨ s.autoRefund = true) ∧ s.deadline < now
    ∧ s' = { s with status := .refunded }
    ∧ ts = [{ recipient := s.agent, amount := s.amount }] := by
  unfold refund at h
  split_ifs at h with h1 h2 h3 h4
  simp only [Except.ok.injEq, Prod.mk.injEq] at h
  exact ⟨h1, not_not.mp h2, h3, h4, h.1.symm, h.2.symm⟩

theorem dispute_ok_inversion (caller : Nat) (s s' : EscrowTask)
    (ts : List Transfer) (h : dispute caller s = .ok (s', ts)) :
    s.agent ≠ 0 ∧ s.status = .active
    ∧ s' = { s with status := .disputed } ∧ ts = [] := by
  unfold dispute at h
  split_ifs at h with h1 h2 h3
  simp only [Except.ok.injEq, Prod.mk.injEq] at h
  exact ⟨h1, not_not.mp h2, h.1.symm, h.2.symm⟩

theorem resolveDispute_ok_inversion (o r : Bool) (s s' : EscrowTask)
    (ts : List Transfer) (h : resolveDispute o r s = .ok (s', ts)) :
    o = true ∧ s.status = .disputed
    ∧ s' = { s with status := if r then .completed else .refunded }
    ∧ ts = [{ recipient := if r then s.serviceProvider else s.agent,
              amount := s.amount }] := by
  unfold resolveDispute at h
  split_ifs at h with h1 h2 h3
  · simp only [Except.ok.injEq, Prod.mk.injEq] at h
    refine ⟨by revert h1; cases o <;> simp, not_not.mp h2, ?_, ?_⟩
    · rw [if_pos h3]; exact h.1.symm
    · rw [if_pos h3]; exact h.2.symm
  · simp only [Except.ok.injEq, Prod.mk.injEq] at h
    refine ⟨by revert h1; cases o <;> simp, not_not.mp h2, ?_, ?_⟩
    · rw [if_neg h3]; exact h.1.symm
    · rw [if_neg h3]; exact h.2.symm

theorem payoutInv_emptyTask : payoutInv emptyTask [] := by
  simp [payoutInv, emptyTask]

theorem escrowStep_preserves_payoutInv (p : Nat) (s : EscrowTask)
    (ps : List Transfer) (e : EscrowEvent) (hok : e.callerOk)
    (hinv : payoutInv s ps) :
    payoutInv (escrowStep p s e).1 (ps ++ (escrowStep p s e).2) := by
  obtain ⟨hz, hnz⟩ := hinv
  cases e with
  | lock now caller provider amount deadline descLen ar =>
    cases h : lockFunds now caller provider amount deadline descLen ar s with
    | error err => simpa [escrowStep, h, payoutInv] using ⟨hz, hnz⟩
    | ok out =>
      obtain ⟨s', ts⟩ := out
      obtain ⟨h0, hts, hs'⟩ :=
        lockFunds_ok_inversion now caller provider amount deadline descLen ar s s' ts h
      obtain ⟨-, hps⟩ := hz h0
      subst hts hs' hps
      have hc : caller ≠ 0 := hok
      simp [escrowStep, h, payoutInv, hc]
  | release now a =>
    cases h : releaseWithProof p now a s with
    | error err => simpa [escrowStep, h, payoutInv] using ⟨hz, hnz⟩
    | ok out =>
      obtain ⟨s', ts⟩ := out
      obtain ⟨hag, hact, -, -, hs', hts⟩ :=
        releaseWithProof_ok_inversion p now a s s' ts h
      have hps : ps = [] := (hnz hag).1 (Or.inl hact)
      subst hts hs' hps
      simp [escrowStep, h, payoutInv, hag]
  | refundCall now caller =>
    cases h : refund now caller s with
    | error err => simpa [escrowStep, h, payoutInv] using ⟨hz, hnz⟩
    | ok out =>
      obtain ⟨s', ts⟩ := out
      obtain ⟨hag, hact, -, -, hs', hts⟩ := refund_ok_inversion now caller s s' ts h
      have hps : ps = [] := (hnz hag).1 (Or.inl hact)
      subst hts hs' hps
      simp [escrowStep, h, payoutInv, hag]
  | disputeCall caller =>
    cases h : dispute caller s with
    | error err => simpa [escrowStep, h, payoutInv] using ⟨hz, hnz⟩
    | ok out =>
      obtain ⟨s', ts⟩ := out
      obtain ⟨hag, hact, hs', hts⟩ := dispute_ok_inversion caller s s' ts h
      have hps : ps = [] := (hnz hag).1 (Or.inl hact)
      subst hts hs' hps
      simp [escrowStep, h, payoutInv, hag]
  | resolve o r =>
    cases h : resolveDispute o r s with
    | error err => simpa [escrowStep, h, payoutInv] using ⟨hz, hnz⟩
    | ok out =>
      obtain ⟨s', ts⟩ := out
      obtain ⟨-, hdisp, hs', hts⟩ := resolveDispute_ok_inversion o r s s' ts h
      have hag : s.agent ≠ 0 := by
        intro hc
        obtain ⟨he, -⟩ := hz hc
        rw [he] at hdisp
        simp [emptyTask] at hdisp
      have hps : ps = [] := (hnz hag).1 (Or.inr hdisp)
      subst hts hs' hps
      cases r <;> simp [escrowStep, h, payoutInv, hag]

theorem escrowRun_payoutInv (p : Nat) (es : List EscrowEvent) :
    ∀ (s : EscrowTask) (ps : List Transfer), (∀ e ∈ es, e.callerOk) →
      payoutInv s ps →
      payoutInv (escrowRun p s es).1 (ps ++ (escrowRun p s es).2) := by
  induction es with
  | nil => intro s ps _ hinv; simpa [escrowRun] using hinv
  | cons e es ih =>
    intro s ps hwf hinv
    simp only [escrowRun]
    have h1 := escrowStep_preserves_payoutInv p s ps e (hwf e (by simp)) hinv
    have h2 := ih (escrowStep p s e).1 (ps ++ (escrowStep p s e).2)
      (fun x hx => hwf x (by simp [hx])) h1
    simpa [List.append_assoc] using h2

theorem payoutInv_cases (s : EscrowTask) (ps : List Transfer)
    (h : payoutInv s ps) :
    ps.length ≤ 1
    ∧ (∀ t ∈ ps, t.amount = s.amount
        ∧ (s.status = .completed ∧ t.recipient = s.serviceProvider
           ∨ s.status = .refunded ∧ t.recipient = s.agent))
    ∧ (ps ≠ [] ↔ s.status.isTerminal = true)
    ∧ (s.status.isTerminal = true → s.agent ≠ 0) := by
  obtain ⟨hz, hnz⟩ := h
  by_cases hag : s.agent = 0
  · obtain ⟨he, hps⟩ := hz hag
    subst he hps
    simp [emptyTask, TaskStatus.isTerminal]
  · obtain ⟨hlive, hcomp, href⟩ := hnz hag
    cases hstatus : s.status with
    | active =>
      have hps : ps = [] := hlive (Or.inl hstatus)
      subst hps
      simp [hstatus, TaskStatus.isTerminal]
    | disputed =>
      have hps : ps = [] := hlive (Or.inr hstatus)
      subst hps
      simp [hstatus, TaskStatus.isTerminal]
    | completed =>
      have hps : ps = [{ recipient := s.serviceProvider, amount := s.amount }] :=
        hcomp hstatus
      subst hps
      simp [hstatus, TaskStatus.isTerminal, hag]
    | refunded =>
      have hps : ps = [{ recipient := s.agent, amount := s.amount }] :=
        href hstatus
      subst hps
      simp [hstatus, TaskStatus.isTerminal, hag]

theorem escrowStep_terminal_fixed (p : Nat) (s : EscrowTask) (hag : s.agent ≠ 0)
    (hterm : s.status.isTerminal = true) (e : EscrowEvent) :
    escrowStep p s e = (s, []) := by
  have hs1 : s.status ≠ .active := by
    intro hc; rw [hc] at hterm; simp [TaskStatus.isTerminal] at hterm
  have hs2 : s.status ≠ .disputed := by
    intro hc; rw [hc] at hterm; simp [TaskStatus.isTerminal] at hterm
  cases e with
  | lock now caller provider amount deadline descLen ar =>
    cases h : lockFunds now caller provider amount deadline descLen ar s with
    | error err => simp [escrowStep, h]
    | ok out =>
      obtain ⟨s', ts⟩ := out
      obtain ⟨h0, -, -⟩ :=
        lockFunds_ok_inversion now caller provider amount deadline descLen ar s s' ts h
      exact absurd h0 hag
  | release now a =>
    cases h : releaseWithProof p now a s with
    | error err => simp [escrowStep, h]
    | ok out =>
      obtain ⟨s', ts⟩ := out
      obtain ⟨-, hact, -⟩ := releaseWithProof_ok_inversion p now a s s' ts h
      exact absurd hact hs1
  | refundCall now caller =>
    cases h : refund now caller s with
    | error err => simp [escrowStep, h]
    | ok out =>
      obtain ⟨s', ts⟩ := out
      obtain ⟨-, hact, -⟩ := refund_ok_inversion now caller s s' ts h
      exact absurd hact hs1
  | disputeCall caller =>
    cases h : dispute caller s with
    | error err => simp [escrowStep, h]
    | ok out =>
      obtain ⟨s', ts⟩ := out
      obtain ⟨-, hact, -⟩ := dispute_ok_inversion caller s s' ts h
      exact absurd hact hs1
  | resolve o r =>
    cases h : resolveDispute o r s with
    | error err => simp [escrowStep, h]
    | ok out =>
      obtain ⟨s', ts⟩ := out
      obtain ⟨-, hdisp, -⟩ := resolveDispute_ok_inversion o r s s' ts h
      exact absurd hdisp hs2

theorem escrowStep_transfer_marks_terminal (p : Nat) (s : EscrowTask)
    (e : EscrowEvent) (h : (escrowStep p s e).2 ≠ []) :
    (escrowStep p s e).1.status.isTerminal = true := by
  cases e with
  | lock now caller provider amount deadline descLen ar =>
    cases hr : lockFunds now caller provider amount deadline descLen ar s with
    | error err => simp [escrowStep, hr] at h
    | ok out =>
      obtain ⟨s', ts⟩ := out
      obtain ⟨-, hts, -⟩ :=
        lockFunds_ok_inversion now caller provider amount deadline descLen ar s s' ts hr
      subst hts
      simp [escrowStep, hr] at h
  | release now a =>
    cases hr : releaseWithProof p now a s with
    | error err => simp [escrowStep, hr] at h
    | ok out =>
      obtain ⟨s', ts⟩ := out
      obtain ⟨-, -, -, -, hs', -⟩ := releaseWithProof_ok_inversion p now a s s' ts hr
      subst hs'
      simp [escrowStep, hr, TaskStatus.isTerminal]
  | refundCall now caller =>
    cases hr : refund now caller s with
    | error err => simp [escrowStep, hr] at h
    | ok out =>
      obtain ⟨s', ts⟩ := out
      obtain ⟨-, -, -, -, hs', -⟩ := refund_ok_inversion now caller s s' ts hr
      subst hs'
      simp [escrowStep, hr, TaskStatus.isTerminal]
  | disputeCall caller =>
    cases hr : dispute caller s with
    | error err => simp [escrowStep, hr] at h
    | ok out =>
      obtain ⟨s', ts⟩ := out
      obtain ⟨-, -, -, hts⟩ := dispute_ok_inversion caller s s' ts hr
      subst hts
      simp [escrowStep, hr] at h
  | resolve o r =>
    cases hr : resolveDispute o r s with
    | error err => simp [escrowStep, hr] at h
    | ok out =>
      obtain ⟨s', ts⟩ := out
      obtain ⟨-, -, hs', -⟩ := resolveDispute_ok_inversion o r s s' ts hr
      subst hs'
      cases r <;> simp [escrowStep, hr, TaskStatus.isTerminal]

end Mnee

namespace Mnee

theorem isOkE_error (e : EscrowError) :
    ((Except.error e : Except EscrowError (EscrowTask × List Transfer))).isOk = false := rfl

theorem isOkE_ok (x : EscrowTask × List Transfer) :
    ((Except.ok x : Except EscrowError (EscrowTask × List Transfer))).isOk = true := rfl

namespace Claims

/-- C1: starting from an unused slot, any sequence of contract calls on one
task pays out at most once; every payout carries the task's full locked
amount and goes to the provider exactly when the task ends Completed or to
the funder exactly when it ends Refunded; a payout occurs exactly when a
terminal status is reached; a terminal task is absorbing (every later call
reverts leaving the slot unchanged, so no terminal state ever reverts to
Active); every transferring step has already marked the matching terminal
status in the same atomic step; and release, refund and resolveDispute all
revert on a task that is not in their exact guard state. -/
theorem C1_escrow_exclusive_payout (p : Nat) (es : List EscrowEvent)
    (hwf : ∀ e ∈ es, e.callerOk) :
    (escrowRun p emptyTask es).2.length ≤ 1
    ∧ (∀ t ∈ (escrowRun p emptyTask es).2,
        t.amount = (escrowRun p emptyTask es).1.amount
        ∧ ((escrowRun p emptyTask es).1.status = .completed
              ∧ t.recipient = (escrowRun p emptyTask es).1.serviceProvider
            ∨ (escrowRun p emptyTask es).1.status = .refunded
              ∧ t.recipient = (escrowRun p emptyTask es).1.agent))
    ∧ ((escrowRun p emptyTask es).2 ≠ []
        ↔ (escrowRun p emptyTask es).1.status.isTerminal = true)
    ∧ ((escrowRun p emptyTask es).1.status.isTerminal = true →
        ∀ e, escrowStep p (escrowRun p emptyTask es).1 e
          = ((escrowRun p emptyTask es).1, []))
    ∧ (∀ s e, (escrowStep p s e).2 ≠ [] →
        (escrowStep p s e).1.status.isTerminal = true)
    ∧ (∀ now a s, s.agent ≠ 0 → s.status ≠ .active →
        releaseWithProof p now a s = .error .taskNotActive)
    ∧ (∀ now c s, s.agent ≠ 0 → s.status ≠ .active →
        refund now c s = .error .taskNotActive)
    ∧ (∀ r s, s.status ≠ .disputed →
        resolveDispute true r s = .error .taskNotDisputed) := by
  have hinv := escrowRun_payoutInv p es emptyTask [] hwf payoutInv_emptyTask
  rw [List.nil_append] at hinv
  obtain ⟨hlen, hall, hiff, hterm⟩ := payoutInv_cases _ _ hinv
  refine ⟨hlen, hall, hiff, ?_, escrowStep_transfer_marks_terminal p, ?_, ?_, ?_⟩
  · intro ht e
    exact escrowStep_terminal_fixed p _ (hterm ht) ht e
  · intro now a s hag hna
    simp [releaseWithProof, hag, hna]
  · intro now c s hag hna
    simp [refund, hag, hna]
  · intro r s hnd
    simp [resolveDispute, hnd]

/-- Witness for C1 on a concrete two-call history: lock 500 for provider 3
with deadline 100, then release at time 50 with a non-empty attestation —
the run makes at most one payout and ends terminal. -/
theorem C1_escrow_exclusive_payout_witness :
    (∀ e ∈ [EscrowEvent.lock 0 2 3 500 100 5 true,
            EscrowEvent.release 50 (Attestation.mk 1 false 0)], e.callerOk)
    ∧ (escrowRun 9 emptyTask [EscrowEvent.lock 0 2 3 500 100 5 true,
        EscrowEvent.release 50 (Attestation.mk 1 false 0)]).2.length ≤ 1
    ∧ ((escrowRun 9 emptyTask [EscrowEvent.lock 0 2 3 500 100 5 true,
        EscrowEvent.release 50 (Attestation.mk 1 false 0)]).2 ≠ []
        ↔ (escrowRun 9 emptyTask [EscrowEvent.lock 0 2 3 500 100 5 true,
            EscrowEvent.release 50 (Attestation.mk 1 false 0)]).1.status.isTerminal
          = true) := by
  have hwf : ∀ e ∈ [EscrowEvent.lock 0 2 3 500 100 5 true,
      EscrowEvent.release 50 (Attestation.mk 1 false 0)], e.callerOk := by
    simp [List.forall_mem_cons, EscrowEvent.callerOk]
  have h := C1_escrow_exclusive_payout 9
    [EscrowEvent.lock 0 2 3 500 100 5 true,
     EscrowEvent.release 50 (Attestation.mk 1 false 0)] hwf
  exact ⟨hwf, h.1, h.2.2.1⟩

/-- C5: on an existing Active task, refund succeeds exactly when
now > deadline and the caller is the funder or autoRefund is enabled; a
successful refund marks Refunded and moves the locked amount back to the
funder; an authorized refund at or before the deadline fails with
DeadlineNotPassed; and after the deadline a refund by any third party
succeeds whenever autoRefund is enabled. -/
theorem C5_refund_guard (s : EscrowTask) (now caller : Nat)
    (hag : s.agent ≠ 0) (hact : s.status = .active) :
    ((refund now caller s).isOk = true
      ↔ ((caller = s.agent ∨ s.autoRefund = true) ∧ s.deadline < now))
    ∧ (∀ s' ts, refund now caller s = .ok (s', ts) →
        s' = { s with status := .refunded }
        ∧ ts = [{ recipient := s.agent, amount := s.amount }])
    ∧ ((caller = s.agent ∨ s.autoRefund = true) → now ≤ s.deadline →
        refund now caller s = .error .deadlineNotPassed)
    ∧ (s.autoRefund = true → s.deadline < now →
        refund now caller s
          = .ok ({ s with status := .refunded },
              [{ recipient := s.agent, amount := s.amount }])) := by
  refine ⟨⟨?_, ?_⟩, ?_, ?_, ?_⟩
  · intro hok
    cases hr : refund now caller s with
    | error err => rw [hr, isOkE_error] at hok; cases hok
    | ok out =>
      obtain ⟨s', ts⟩ := out
      obtain ⟨-, -, hauth, hd, -, -⟩ := refund_ok_inversion now caller s s' ts hr
      exact ⟨hauth, hd⟩
  · rintro ⟨hauth, hd⟩
    simp [refund, hag, hact, not_not_intro hauth, hd, isOkE_ok]
  · intro s' ts h
    obtain ⟨-, -, -, -, hs', hts⟩ := refund_ok_inversion now caller s s' ts h
    exact ⟨hs', hts⟩
  · intro hauth hle
    have hnd : ¬ (s.deadline < now) := by omega
    simp [refund, hag, hact, not_not_intro hauth, hnd]
  · intro har hd
    simp [refund, hag, hact, not_not_intro (Or.inr har : caller = s.agent ∨ s.autoRefund = true), hd]

/-- Witness for C5: task (funder 2, provider 3, 500 locked, deadline 100,
autoRefund on): a third-party refund at time 101 succeeds and pays the
funder; at time 100 it fails with DeadlineNotPassed. -/
theorem C5_refund_guard_witness :
    refund 101 9 (EscrowTask.mk 2 3 500 100 .active true)
      = .ok (EscrowTask.mk 2 3 500 100 .refunded true,
          [{ recipient := 2, amount := 500 }])
    ∧ refund 100 9 (EscrowTask.mk 2 3 500 100 .active true)
      = .error .deadlineNotPassed := by
  have h :=
    C5_refund_guard (EscrowTask.mk 2 3 500 100 .active true) 101 9 (by decide) rfl
  have h' :=
    C5_refund_guard (EscrowTask.mk 2 3 500 100 .active true) 100 9 (by decide) rfl
  exact ⟨h.2.2.2 rfl (by decide), h'.2.2.1 (Or.inr rfl) (by decide)⟩

/-- C6: at the exact deadline instant, release (inclusive guard
now ≤ deadline) still succeeds on an Active task with a verifying
attestation, while refund (strict guard now > deadline) fails with
DeadlineNotPassed even for an authorized caller. -/
theorem C6_deadline_boundary (p : Nat) (s : EscrowTask) (a : Attestation)
    (caller : Nat) (hag : s.agent ≠ 0) (hact : s.status = .active)
    (hv : verifyAttestation p a = true)
    (hauth : caller = s.agent ∨ s.autoRefund = true) :
    releaseWithProof p s.deadline a s
      = .ok ({ s with status := .completed },
          [{ recipient := s.serviceProvider, amount := s.amount }])
    ∧ refund s.deadline caller s = .error .deadlineNotPassed := by
  constructor
  · simp [releaseWithProof, hag, hact, hv, le_refl]
  · simp [refund, hag, hact, not_not_intro hauth, lt_irrefl]

/-- Witness for C6 at the concrete boundary now = deadline = 100. -/
theorem C6_deadline_boundary_witness :
    releaseWithProof 7 100 (Attestation.mk 1 false 0)
        (EscrowTask.mk 2 3 500 100 .active true)
      = .ok (EscrowTask.mk 2 3 500 100 .completed true,
          [{ recipient := 3, amount := 500 }])
    ∧ refund 100 2 (EscrowTask.mk 2 3 500 100 .active true)
      = .error .deadlineNotPassed := by
  have h := C6_deadline_boundary 7 (EscrowTask.mk 2 3 500 100 .active true)
    (Attestation.mk 1 false 0) 2 (by decide) rfl (by decide) (Or.inl rfl)
  exact h

/-- C8: an attestation that does not verify under the configured strategy
makes releaseWithProof revert with InvalidAttestation, leaving the task
Active and moving no funds; the empty attestation (zero uid, no signature)
never verifies, and a signed attestation whose recovered signer is not the
trusted attestation provider never verifies. -/
theorem C8_invalid_attestation_rejected (p now : Nat) (a : Attestation)
    (s : EscrowTask) (hv : verifyAttestation p a = false) (hag : s.agent ≠ 0)
    (hact : s.status = .active) (hd : now ≤ s.deadline) :
    releaseWithProof p now a s = .error .invalidAttestation
    ∧ escrowStep p s (.release now a) = (s, [])
    ∧ (∀ r, verifyAttestation p
        { uid := 0, sigPresent := false, recoveredSigner := r } = false)
    ∧ (∀ u r, r ≠ p → verifyAttestation p
        { uid := u, sigPresent := true, recoveredSigner := r } = false) := by
  have h1 : releaseWithProof p now a s = .error .invalidAttestation := by
    simp [releaseWithProof, hag, hact, hd, hv]
  refine ⟨h1, ?_, ?_, ?_⟩
  · simp [escrowStep, h1]
  · intro r
    simp [verifyAttestation]
  · intro u r hr
    simp [verifyAttestation, hr]

/-- Witness for C8: the empty attestation on an Active 200-token escrow at
time 50 (deadline 100) is rejected and the step is a no-op. -/
theorem C8_invalid_attestation_rejected_witness :
    releaseWithProof 7 50 (Attestation.mk 0 false 0)
        (EscrowTask.mk 2 3 200 100 .active false)
      = .error .invalidAttestation
    ∧ escrowStep 7 (EscrowTask.mk 2 3 200 100 .active false)
        (.release 50 (Attestation.mk 0 false 0))
      = (EscrowTask.mk 2 3 200 100 .active false, []) := by
  have h := C8_invalid_attestation_rejected 7 50 (Attestation.mk 0 false 0)
    (EscrowTask.mk 2 3 200 100 .active false) rfl (by decide) rfl (by decide)
  exact ⟨h.1, h.2.1⟩

end Claims

end Mnee

namespace Mnee

/-! ## Session-key revocation lemmas -/

theorem lookup_eq_none_of_not_mem (keyId : String) (l : KeyStore)
    (h : keyId ∉ l.map Prod.fst) : l.lookup keyId = none := by
  induction l with
  | nil => rfl
  | cons x l ih =>
    obtain ⟨a, v⟩ := x
    simp only [List.map_cons, List.mem_cons] at h
    push_neg at h
    obtain ⟨h1, h2⟩ := h
    have hb : (keyId == a) = false := beq_eq_false_iff_ne.mpr h1
    simp [List.lookup, hb, ih h2]

theorem lookup_eraseP_self (keyId : String) (st : KeyStore)
    (hnd : (st.map Prod.fst).Nodup) :
    (st.eraseP (fun p => p.1 == keyId)).lookup keyId = none := by
  induction st with
  | nil => rfl
  | cons x st ih =>
    obtain ⟨a, v⟩ := x
    simp only [List.map_cons, List.nodup_cons] at hnd
    obtain ⟨hna, hnd'⟩ := hnd
    by_cases hak : a = keyId
    · subst hak
      rw [List.eraseP_cons_of_pos]
      · exact lookup_eq_none_of_not_mem a st hna
      · simp
    · rw [List.eraseP_cons_of_neg]
      · have hb : (keyId == a) = false := beq_eq_false_iff_ne.mpr (Ne.symm hak)
        simp only [List.lookup, hb]
        exact ih hnd'
      · simp [hak]

namespace Claims

/-- C7 (amended): in the SDK client, revoking a key that is present in the
store issues exactly one allowance-zeroing approve transaction and deletes
the entry, after which the key can no longer be found; revoking a key that
is not in the store — in particular one already revoked — throws
"Session key not found" (and issues no on-chain transaction) rather than
returning as a silent no-op. -/
theorem C7_revoke_amended (st : KeyStore) (keyId : String)
    (hnd : (st.map Prod.fst).Nodup) :
    (st.lookup keyId = none →
      revokeSessionKey st keyId = .error .sessionKeyNotFound)
    ∧ (∀ k, st.lookup keyId = some k →
        revokeSessionKey st keyId
            = .ok (st.eraseP (fun p => p.1 == keyId),
                { spender := k.address, amountWei := 0 })
          ∧ (st.eraseP (fun p => p.1 == keyId)).lookup keyId = none
          ∧ revokeSessionKey (st.eraseP (fun p => p.1 == keyId)) keyId
              = .error .sessionKeyNotFound) := by
  constructor
  · intro h
    simp [revokeSessionKey, h]
  · intro k h
    have hnone := lookup_eraseP_self keyId st hnd
    refine ⟨by simp [revokeSessionKey, h], hnone, by simp [revokeSessionKey, hnone]⟩

/-- Witness for C7 (amended): a store holding one key labelled "agent";
revoking it zeroes the allowance of address 5 and empties the store; the
second revocation throws. -/
theorem C7_revoke_amended_witness :
    revokeSessionKey [("agent", SessionKey.mk 5 1000 1000 3600 0)] "agent"
        = .ok (List.eraseP (fun p => p.1 == "agent")
              [("agent", SessionKey.mk 5 1000 1000 3600 0)],
            { spender := 5, amountWei := 0 })
    ∧ (List.eraseP (fun p => p.1 == "agent")
        [("agent", SessionKey.mk 5 1000 1000 3600 0)]).lookup "agent" = none
    ∧ revokeSessionKey (List.eraseP (fun p => p.1 == "agent")
        [("agent", SessionKey.mk 5 1000 1000 3600 0)]) "agent"
        = .error .sessionKeyNotFound :=
  (C7_revoke_amended [("agent", SessionKey.mk 5 1000 1000 3600 0)] "agent"
    (by simp)).2 (SessionKey.mk 5 1000 1000 3600 0) rfl

/-- C7 counterexample: revoking the sole key empties the store, and a second
revocation of the same id throws "Session key not found" — it is not the
claimed error-free no-op. -/
theorem C7_second_revoke_throws_counterexample :
    revokeSessionKey [("agent", SessionKey.mk 5 1000 1000 3600 0)] "agent"
      = .ok ([], { spender := 5, amountWei := 0 })
    ∧ revokeSessionKey [] "agent" = .error .sessionKeyNotFound :=
  ⟨rfl, rfl⟩

end Claims

end Mnee

namespace Mnee

/-! ## Minor-unit conversion lemmas -/

theorem digitsToNat_shift (ds : List Nat) (init : Nat) :
    ds.foldl (fun a d => a * 10 + d) init
      = init * 10 ^ ds.length + digitsToNat ds := by
  induction ds generalizing init with
  | nil => simp [digitsToNat]
  | cons d ds ih =>
    have hd : digitsToNat (d :: ds)
        = ds.foldl (fun a d => a * 10 + d) (0 * 10 + d) := rfl
    simp only [List.foldl, List.length_cons]
    rw [ih, hd, ih]
    ring

theorem digitsToNat_append (a b : List Nat) :
    digitsToNat (a ++ b) = digitsToNat a * 10 ^ b.length + digitsToNat b := by
  unfold digitsToNat
  rw [List.foldl_append]
  exact digitsToNat_shift b _

theorem digitsToNat_replicate_zero (k : Nat) :
    digitsToNat (List.replicate k 0) = 0 := by
  induction k with
  | zero => rfl
  | succ k ih =>
    have h1 : List.replicate (k + 1) 0 = 0 :: List.replicate k 0 := rfl
    have h2 : digitsToNat (0 :: List.replicate k 0)
        = (List.replicate k 0).foldl (fun a d => a * 10 + d) (0 * 10 + 0) := rfl
    rw [h1, h2, digitsToNat_shift]
    simpa using ih

theorem digitsToNat_padStartZeros (len : Nat) (ds : List Nat) :
    digitsToNat (padStartZeros len ds) = digitsToNat ds := by
  unfold padStartZeros
  rw [digitsToNat_append, digitsToNat_replicate_zero]
  ring

theorem digitsToNat_reverse (l : List Nat) :
    digitsToNat l.reverse = Nat.ofDigits 10 l := by
  induction l with
  | nil => rfl
  | cons d l ih =>
    rw [List.reverse_cons, digitsToNat_append, ih, Nat.ofDigits_cons]
    have hd : digitsToNat [d] = d := by simp [digitsToNat]
    rw [hd]
    have h1 : ([d] : List Nat).length = 1 := rfl
    rw [h1, pow_one]
    omega

theorem digitsToNat_natToDigits (n : Nat) : digitsToNat (natToDigits n) = n := by
  unfold natToDigits
  split_ifs with h
  · subst h; rfl
  · rw [digitsToNat_reverse, Nat.ofDigits_digits]

theorem natToDigits_ne_nil (n : Nat) : natToDigits n ≠ [] := by
  unfold natToDigits
  split_ifs with h
  · simp
  · simpa [List.reverse_eq_nil_iff] using (Nat.digits_ne_nil_iff_ne_zero).mpr h

theorem takeWhile_zeros_eq_replicate (l : List Nat) :
    l.takeWhile (fun d => d == 0)
      = List.replicate (l.takeWhile (fun d => d == 0)).length 0 := by
  apply List.eq_replicate_iff.mpr
  refine ⟨rfl, ?_⟩
  intro b hb
  have := List.mem_takeWhile_imp hb
  simpa using this

theorem dropTrailingZeros_spec (ds : List Nat) :
    ∃ kz, ds = dropTrailingZeros ds ++ List.replicate kz 0
      ∧ (dropTrailingZeros ds).length + kz = ds.length := by
  have hsplit : ds = dropTrailingZeros ds
      ++ List.replicate (ds.reverse.takeWhile (fun d => d == 0)).length 0 := by
    calc ds = ds.reverse.reverse := (List.reverse_reverse ds).symm
    _ = (ds.reverse.takeWhile (fun d => d == 0)
          ++ ds.reverse.dropWhile (fun d => d == 0)).reverse := by
        rw [List.takeWhile_append_dropWhile]
    _ = (ds.reverse.dropWhile (fun d => d == 0)).reverse
          ++ (ds.reverse.takeWhile (fun d => d == 0)).reverse := by
        rw [List.reverse_append]
    _ = dropTrailingZeros ds
          ++ List.replicate (ds.reverse.takeWhile (fun d => d == 0)).length 0 := by
        unfold dropTrailingZeros
        rw [takeWhile_zeros_eq_replicate (ds.reverse), List.reverse_replicate,
          List.length_replicate]
  refine ⟨(ds.reverse.takeWhile (fun d => d == 0)).length, hsplit, ?_⟩
  have hlen := congrArg List.length hsplit
  simp only [List.length_append, List.length_replicate] at hlen
  omega

namespace Claims

/-- C10: toWei is a left inverse of fromWei on minor units — rendering any
nonnegative amount of wei as a human-readable decimal string (trailing zeros
stripped at 6-decimal precision) and parsing it back (fractional part padded
and truncated to 6 digits) returns exactly the original wei amount. -/
theorem C10_toWei_fromWei_roundtrip (w : Nat) : toWei (fromWei w) = w := by
  have hwsd : digitsToNat (padStartZeros (decimals + 1) (natToDigits w)) = w := by
    rw [digitsToNat_padStartZeros]
    exact digitsToNat_natToDigits w
  have hnd : natToDigits w ≠ [] := natToDigits_ne_nil w
  have hndlen : 1 ≤ (natToDigits w).length := by
    cases hc : natToDigits w with
    | nil => exact absurd hc hnd
    | cons a l => simp
  have hwslen : decimals + 1 ≤ (padStartZeros (decimals + 1) (natToDigits w)).length := by
    unfold padStartZeros
    rw [List.length_append, List.length_replicate]
    omega
  have hp1 : 1 ≤ (padStartZeros (decimals + 1) (natToDigits w)).length - decimals := by
    omega
  have htake_ne : (padStartZeros (decimals + 1) (natToDigits w)).take
      ((padStartZeros (decimals + 1) (natToDigits w)).length - decimals) ≠ [] := by
    intro hc
    have hl := congrArg List.length hc
    rw [List.length_take] at hl
    simp only [List.length_nil] at hl
    omega
  have hdlen : ((padStartZeros (decimals + 1) (natToDigits w)).drop
      ((padStartZeros (decimals + 1) (natToDigits w)).length - decimals)).length
      = decimals := by
    rw [List.length_drop]
    omega
  have hfrom : fromWei w
      = { whole := (padStartZeros (decimals + 1) (natToDigits w)).take
            ((padStartZeros (decimals + 1) (natToDigits w)).length - decimals)
          frac := dropTrailingZeros
            ((padStartZeros (decimals + 1) (natToDigits w)).drop
              ((padStartZeros (decimals + 1) (natToDigits w)).length - decimals)) } := by
    simp only [fromWei]
    rw [if_neg htake_ne]
  rw [hfrom]
  simp only [toWei]
  obtain ⟨kz, hdec, hklen⟩ := dropTrailingZeros_spec
    ((padStartZeros (decimals + 1) (natToDigits w)).drop
      ((padStartZeros (decimals + 1) (natToDigits w)).length - decimals))
  have hpad : padEndZeros decimals (dropTrailingZeros
      ((padStartZeros (decimals + 1) (natToDigits w)).drop
        ((padStartZeros (decimals + 1) (natToDigits w)).length - decimals)))
      = (padStartZeros (decimals + 1) (natToDigits w)).drop
          ((padStartZeros (decimals + 1) (natToDigits w)).length - decimals) := by
    unfold padEndZeros
    have hkz : decimals - (dropTrailingZeros
        ((padStartZeros (decimals + 1) (natToDigits w)).drop
          ((padStartZeros (decimals + 1) (natToDigits w)).length - decimals))).length
        = kz := by omega
    rw [hkz]
    exact hdec.symm
  rw [hpad]
  have htakeall : ((padStartZeros (decimals + 1) (natToDigits w)).drop
      ((padStartZeros (decimals + 1) (natToDigits w)).length - decimals)).take decimals
      = (padStartZeros (decimals + 1) (natToDigits w)).drop
          ((padStartZeros (decimals + 1) (natToDigits w)).length - decimals) :=
    List.take_of_length_le (le_of_eq hdlen)
  rw [htakeall, List.take_append_drop, hwsd]

end Claims

end Mnee
